import Mathlib

/-!
Formal model of the failure-aware security authorization core:
graduated trust levels, the retry-safe authorizer with idempotency
tokens, the trust-aware permission check, the runtime invariant
checker, the resilient audit sink, and the trust-monitor anti-flap
state machine.  Each definition is a shallow embedding of the
corresponding Python function; machine floats (metric values,
timestamps in seconds) are embedded as rationals, sets of privilege
strings as finite sets of strings, and raised exceptions as
explicit error results.
-/

/-- Trust levels, from `graduated_trust_levels.py` (`class TrustLevel`). -/
inductive TrustLevel
  | NORMAL
  | DEGRADED
  | CONSTRAINED
  | NO_TRUST
deriving DecidableEq

/-- The numeric rank of each level (`TrustLevel.value` in the source:
NORMAL = 4, DEGRADED = 3, CONSTRAINED = 2, NO_TRUST = 1). -/
def TrustLevel.value : TrustLevel → ℕ
  | .NORMAL => 4
  | .DEGRADED => 3
  | .CONSTRAINED => 2
  | .NO_TRUST => 1

/-- The enum member name, as Python `trust_level.name` renders it. -/
def TrustLevel.name : TrustLevel → String
  | .NORMAL => "NORMAL"
  | .DEGRADED => "DEGRADED"
  | .CONSTRAINED => "CONSTRAINED"
  | .NO_TRUST => "NO_TRUST"

/-- Metrics snapshot, from `graduated_trust_levels.py` (`class TrustMetrics`):
latency in milliseconds, error rate in percent, staleness in seconds. -/
structure TrustMetrics where
  auth_latency_p99 : ℚ
  error_rate : ℚ
  cache_staleness : ℚ
deriving DecidableEq

/-- `TrustMonitor.evaluate_trust_level` from `graduated_trust_levels.py`:
threshold classification of metrics into a trust level. -/
def TrustMonitor.evaluate_trust_level (metrics : TrustMetrics) : TrustLevel :=
  if metrics.error_rate > 50 ∨ metrics.auth_latency_p99 > 10000 ∨
      metrics.cache_staleness > 1800 then
    .NO_TRUST
  else if metrics.error_rate > 20 ∨ metrics.auth_latency_p99 > 2000 ∨
      metrics.cache_staleness > 300 then
    .CONSTRAINED
  else if metrics.error_rate > 1 ∨ metrics.auth_latency_p99 > 200 then
    .DEGRADED
  else
    .NORMAL

/-- `TrustMonitor.get_allowed_privileges` from `graduated_trust_levels.py`:
the privilege set permitted at each trust level. -/
def TrustMonitor.get_allowed_privileges : TrustLevel → Finset String
  | .NORMAL => {"read", "write", "delete", "admin", "share"}
  | .DEGRADED => {"read", "write", "share"}
  | .CONSTRAINED => {"read"}
  | .NO_TRUST => ∅

/-- `AuthorizationToken` from `retry_safe_authorization.py`.  Timestamps
(`granted_at`, `expires_at`) are seconds since an arbitrary epoch. -/
structure AuthorizationToken where
  token_id : String
  user_id : String
  resource_id : String
  operation : String
  privileges : Finset String
  granted_at : ℚ
  expires_at : ℚ
deriving DecidableEq

/-- `AuthorizationToken.is_valid`: `datetime.utcnow() < self.expires_at`,
with the current wall-clock time passed explicitly. -/
def AuthorizationToken.is_valid (t : AuthorizationToken) (now : ℚ) : Bool :=
  now < t.expires_at

/-- `AuthResult` as constructed throughout the source: fields that a call
site leaves unset are `none` / the empty privilege set. -/
structure AuthResult where
  allowed : Bool
  reason : Option String
  token : Option AuthorizationToken
  privileges : Finset String
deriving DecidableEq

/-- The token store of `RetrySafeAuthorizer` (`self.token_store`, a dict
keyed by token id; `.get` returns `none` on a missing key). -/
def TokenStore : Type := String → Option AuthorizationToken

/-- `RetrySafeAuthorizer.authorize_with_retry` from
`retry_safe_authorization.py`.  External inputs are passed explicitly:
`get_privileges` is the privilege set the authoritative service returns
for this call, `new_id` the fresh id `generate_unique_id()` would mint,
`now` the wall clock.  The result pairs the returned `AuthResult` with
the token store after the call (the store is only written on attempt 0).
The security-log warning emitted when privileges have narrowed is an
observability side effect with no influence on the result and is not
modelled. -/
def authorize_with_retry (store : TokenStore) (get_privileges : Finset String)
    (new_id : String) (now : ℚ) (user_id resource_id operation : String)
    (attempt : ℕ) (previous_token : Option AuthorizationToken) :
    AuthResult × TokenStore :=
  if attempt = 0 then
    let privileges := get_privileges
    let token : AuthorizationToken :=
      { token_id := new_id
        user_id := user_id
        resource_id := resource_id
        operation := operation
        privileges := privileges
        granted_at := now
        expires_at := now + 300 }
    let store1 : TokenStore :=
      fun id => if id = token.token_id then some token else store id
    ({ allowed := true, reason := none, token := some token,
       privileges := privileges }, store1)
  else
    match previous_token with
    | none =>
        ({ allowed := false,
           reason := some "Invalid or expired authorization token",
           token := none, privileges := ∅ }, store)
    | some pt =>
        if ¬ pt.is_valid now then
          ({ allowed := false,
             reason := some "Invalid or expired authorization token",
             token := none, privileges := ∅ }, store)
        else
          match store pt.token_id with
          | none =>
              ({ allowed := false,
                 reason := some "Authorization token not found",
                 token := none, privileges := ∅ }, store)
          | some stored_token =>
              let current_privileges := get_privileges
              let allowed_privileges :=
                stored_token.privileges ∩ current_privileges
              ({ allowed := true, reason := none,
                 token := some stored_token,
                 privileges := allowed_privileges }, store)

/-- The empty token store of a freshly constructed `RetrySafeAuthorizer`. -/
def emptyStore : TokenStore := fun _ => none

/-- The retry chain driven by `execute_with_retry_safe_auth`
(`execute_with_retry_safe_auth.py`): attempt 0 starts with no token and
an empty store; attempt `k+1` passes the token returned by attempt `k`.
`privAt k` is the authoritative privilege set at the time of attempt `k`
and `timeAt k` the wall clock then. -/
def runChain (privAt : ℕ → Finset String) (timeAt : ℕ → ℚ)
    (new_id user_id resource_id operation : String) :
    ℕ → AuthResult × TokenStore
  | 0 =>
      authorize_with_retry emptyStore (privAt 0) new_id (timeAt 0)
        user_id resource_id operation 0 none
  | k + 1 =>
      let prev := runChain privAt timeAt new_id user_id resource_id operation k
      authorize_with_retry prev.2 (privAt (k + 1)) new_id (timeAt (k + 1))
        user_id resource_id operation (k + 1) prev.1.token

/-- The privilege set returned at attempt `k` of a retry chain. -/
def chainPrivileges (privAt : ℕ → Finset String) (timeAt : ℕ → ℚ)
    (new_id user_id resource_id operation : String) (k : ℕ) : Finset String :=
  (runChain privAt timeAt new_id user_id resource_id operation k).1.privileges

/-- A cache entry as the trust-aware authorizer reads it: the cached
`AuthResult` plus its age in seconds (`cached.age_seconds`). -/
structure CachedAuth where
  result : AuthResult
  age_seconds : ℚ
deriving DecidableEq

/-- The authorization cache, keyed by the strings the source builds
(`f"auth:{user}:{resource}:{operation}"`); `get` on a missing key is
`none` (Python falsy). -/
def AuthCache : Type := String → Option CachedAuth

/-- The cache key `f"auth:{user}:{resource}:{operation}"`. -/
def authCacheKey (user resource operation : String) : String :=
  "auth:" ++ user ++ ":" ++ resource ++ ":" ++ operation

/-- The single quote character, used by Python string formatting. -/
def quoteChar : Char := Char.ofNat 39

/-- The single quote as a one-character string. -/
def quoteStr : String := ⟨[quoteChar]⟩

/-- The denial reason `f"Operation {op} not permitted at trust level
{trust_level.name}"` produced by the allowed-operations gate of
`TrustAwareAuthorizer.check_permission` (the operation is quoted). -/
def gateReason (operation : String) (trust_level : TrustLevel) : String :=
  "Operation " ++ quoteStr ++ operation ++ quoteStr ++
    " not permitted at trust level " ++ trust_level.name

/-- Result of a `check_permission` call together with the number of
calls it made to the authoritative backend (`self.auth_service.check`). -/
structure PermOutcome where
  result : AuthResult
  backend_calls : ℕ
deriving DecidableEq

/-- `TrustAwareAuthorizer.check_permission` from
`trust_aware_authorizer.py`.  `auth_check` is the authoritative
backend's behaviour for this call (`Except.error ()` models
`TimeoutError`); `cache` the current cache contents; `is_public` the
resource's `is_public` flag.  The cache write performed after a
successful fresh authorization changes no observable of the returned
value and is not threaded; in the degraded read fallback the source
returns the cached object itself, modelled as the cached `AuthResult`. -/
def check_permission (trust_level : TrustLevel)
    (auth_check : Except Unit AuthResult) (cache : AuthCache)
    (user resource : String) (is_public : Bool) (operation : String) :
    PermOutcome :=
  let allowed_operations := TrustMonitor.get_allowed_privileges trust_level
  if operation ∉ allowed_operations then
    { result := { allowed := false,
                  reason := some (gateReason operation trust_level),
                  token := none, privileges := ∅ },
      backend_calls := 0 }
  else if trust_level = .NORMAL ∨ trust_level = .DEGRADED then
    match auth_check with
    | .ok auth_result => { result := auth_result, backend_calls := 1 }
    | .error _ =>
        if trust_level = .DEGRADED ∧ operation = "read" then
          match cache (authCacheKey user resource operation) with
          | some cached =>
              if cached.age_seconds < 300 then
                { result := cached.result, backend_calls := 1 }
              else
                { result := { allowed := false,
                              reason := some "Authorization service timeout, no valid cache",
                              token := none, privileges := ∅ },
                  backend_calls := 1 }
          | none =>
              { result := { allowed := false,
                            reason := some "Authorization service timeout, no valid cache",
                            token := none, privileges := ∅ },
                backend_calls := 1 }
        else
          { result := { allowed := false,
                        reason := some "Authorization service timeout, no valid cache",
                        token := none, privileges := ∅ },
            backend_calls := 1 }
  else if trust_level = .CONSTRAINED then
    if operation = "read" then
      match cache (authCacheKey user resource "read") with
      | some cached =>
          if cached.age_seconds < 60 then
            { result := cached.result, backend_calls := 0 }
          else
            { result := { allowed := false,
                          reason := some "Insufficient trust level for authorization",
                          token := none, privileges := ∅ },
              backend_calls := 0 }
      | none =>
          { result := { allowed := false,
                        reason := some "Insufficient trust level for authorization",
                        token := none, privileges := ∅ },
            backend_calls := 0 }
    else
      { result := { allowed := false,
                    reason := some "Insufficient trust level for authorization",
                    token := none, privileges := ∅ },
        backend_calls := 0 }
  else
    if is_public ∧ operation = "read" then
      { result := { allowed := true, reason := some "Public resource",
                    token := none, privileges := ∅ },
        backend_calls := 0 }
    else
      { result := { allowed := false,
                    reason := some "No trust - systems unavailable",
                    token := none, privileges := ∅ },
        backend_calls := 0 }

/-- Invariant severities, from `runtime_security_invariants.py`. -/
inductive InvariantSeverity
  | CRITICAL
  | HIGH
  | MEDIUM
  | LOW
deriving DecidableEq

/-- A security invariant over contexts of type `Ctx`: the class name
(Python `invariant.__class__.__name__`), the severity, the check
predicate and the violation-message function. -/
structure SecurityInvariant (Ctx : Type) where
  name : String
  severity : InvariantSeverity
  check : Ctx → Bool
  violation_message : Ctx → String

/-- Observable outcome of `InvariantChecker.check_all`: the metric
events recorded, one `(invariant name, passed, severity)` triple per
invariant actually evaluated, in evaluation order, and the result —
`Except.error message` models the raised `SecurityInvariantViolation`. -/
structure CheckOutcome where
  events : List (String × Bool × InvariantSeverity)
  result : Except String Bool

/-- The loop body of `check_all`: `acc` is `all_passed` so far, `tr`
the reversed metric-event trace so far. -/
def checkAllGo {Ctx : Type} (ctx : Ctx) :
    List (SecurityInvariant Ctx) → Bool →
    List (String × Bool × InvariantSeverity) → CheckOutcome
  | [], acc, tr => { events := tr.reverse, result := .ok acc }
  | inv :: rest, acc, tr =>
      let passed := inv.check ctx
      let tr1 := (inv.name, passed, inv.severity) :: tr
      if passed then
        checkAllGo ctx rest acc tr1
      else
        match inv.severity with
        | .CRITICAL =>
            { events := tr1.reverse, result := .error (inv.violation_message ctx) }
        | _ => checkAllGo ctx rest false tr1

/-- `InvariantChecker.check_all` from `runtime_security_invariants.py`.
Evaluates the registered invariants in order, records a metric event
per evaluated invariant, raises `SecurityInvariantViolation` on a
failed CRITICAL invariant, and otherwise returns whether all passed.
The severity-specific log lines and the HIGH-severity alert are
observability side effects and are not modelled. -/
def check_all {Ctx : Type} (invariants : List (SecurityInvariant Ctx))
    (context : Ctx) : CheckOutcome :=
  checkAllGo context invariants true []

/-- Operations for which an audit is always required
(`self.audit_required_operations` in `resilient_audit_service.py`). -/
def audit_required_operations : Finset String := {"admin", "delete", "share"}

/-- `ResilientAuditService.log_operation` from
`resilient_audit_service.py`.  `primary_ok` / `fallback_ok` say whether
the respective sink's `log` call succeeds; a primary failure is the
caught `AuditServiceError`, a fallback failure any exception.
`Except.error` models the raised blocking `AuditFailureException`;
metric increments and log lines are not modelled. -/
def log_operation (primary_ok fallback_ok : Bool) (operation : String)
    (required : Bool) : Except String Bool :=
  if primary_ok then
    .ok true
  else if fallback_ok then
    .ok true
  else if required ∨ operation ∈ audit_required_operations then
    .error "Operation blocked: audit service unavailable"
  else
    .ok false

/-- `TrustMonitor.update_trust_level` from `trust_monitor.py`
(observation-mode monitor): recompute the level from metrics and set
`self.current_level` to it whenever it differs; log lines and metric
emissions are observability side effects and are not modelled.  Returns
the monitor level after the call. -/
def TrustMonitor.update_trust_level (current_level : TrustLevel)
    (metrics : TrustMetrics) : TrustLevel :=
  let new_level := TrustMonitor.evaluate_trust_level metrics
  if new_level ≠ current_level then new_level else current_level

/-- State of the anti-flap monitor of `evaluate_trust_level.py`:
`current_level` and `level_enter_time` are its instance fields;
`last_computed` and `computed_streak` carry the consecutive-evaluation
history that its helper `_confirm_degradation` consults (that helper is
not in the sources, so its state is modelled from the spec). -/
structure AntiFlapState where
  current_level : TrustLevel
  level_enter_time : ℚ
  last_computed : Option TrustLevel
  computed_streak : ℕ
deriving DecidableEq

/-- The number of consecutive evaluations (including the current one)
on which the computed level equals `new_level`. -/
def confirmStreak (s : AntiFlapState) (new_level : TrustLevel) : ℕ :=
  if s.last_computed = some new_level then s.computed_streak + 1 else 1

/-- Modelled from the spec: `TrustMonitor._confirm_degradation(new_level,
samples=3)` of `evaluate_trust_level.py` is absent from the sources; per
the spec a downgrade "is additionally applied only after being confirmed
on ≥3 consecutive evaluations", so it holds iff the computed level has
been produced on at least `samples` consecutive evaluations. -/
def confirm_degradation (s : AntiFlapState) (new_level : TrustLevel)
    (samples : ℕ) : Bool :=
  samples ≤ confirmStreak s new_level

/-- `min_level_duration` of the anti-flap monitor, 30 seconds. -/
def min_level_duration : ℚ := 30

/-- `TrustMonitor.evaluate_trust_level` from `evaluate_trust_level.py`
(the anti-flap monitor; named apart to keep it distinct from the
threshold classifier it calls).  Its helper `_compute_level` is absent
from the sources; per the spec it is the default-threshold
classification, i.e. `TrustMonitor.evaluate_trust_level` of
`graduated_trust_levels.py`.  `now` is `time.time()`.  Returns the new
state and the returned level. -/
def antiFlapEvaluate (s : AntiFlapState) (now : ℚ) (metrics : TrustMetrics) :
    AntiFlapState × TrustLevel :=
  let new_level := TrustMonitor.evaluate_trust_level metrics
  let streak := confirmStreak s new_level
  let s1 : AntiFlapState :=
    { s with last_computed := some new_level, computed_streak := streak }
  let time_at_current := now - s.level_enter_time
  if new_level ≠ s.current_level then
    if time_at_current < min_level_duration then
      (s1, s.current_level)
    else if new_level.value < s.current_level.value ∧
        ¬ confirm_degradation s new_level 3 then
      (s1, s.current_level)
    else
      ({ s1 with current_level := new_level, level_enter_time := now },
        new_level)
  else
    (s1, s.current_level)

/-- Python `repr` of a string, as interpolated into the token message
for each privilege name: the content between single quotes.  This is
Python's rendering for strings that contain no quote character; the
theorems that depend on it restrict privilege names accordingly. -/
def pyStrRepr (s : String) : String :=
  quoteStr ++ s ++ quoteStr

/-- The element reprs joined by a comma and space, as Python joins the
items of a list rendering. -/
def pyJoinReprs : List String → String
  | [] => ""
  | [s] => pyStrRepr s
  | s :: t :: rest => pyStrRepr s ++ ", " ++ pyJoinReprs (t :: rest)

/-- Python `str` of a list of strings, as `f"{sorted(privileges)}"`
renders it: the element reprs joined by a comma and space, in square
brackets. -/
def pyListRepr (l : List String) : String :=
  "[" ++ pyJoinReprs l ++ "]"

/-- The sorted privilege list `sorted(self.privileges)` of a token
(Python sorts the set ascending). -/
def sortedPrivileges (t : AuthorizationToken) : List String :=
  t.privileges.sort (· ≤ ·)

/-- The message `f"{token_id}:{user_id}:{resource_id}:{operation}:
{sorted(privileges)}"` that `AuthorizationToken.compute_hmac` feeds to
HMAC-SHA256. -/
def tokenMessage (t : AuthorizationToken) : String :=
  t.token_id ++ ":" ++ t.user_id ++ ":" ++ t.resource_id ++ ":" ++
    t.operation ++ ":" ++ pyListRepr (sortedPrivileges t)

/-- `AuthorizationToken.compute_hmac` from `retry_safe_authorization.py`.
The HMAC-SHA256 primitive is an external cryptographic function and is
passed as the parameter `hmac_sha256` (key and message to hex digest);
the source applies it to the secret key and `tokenMessage`. -/
def compute_hmac (hmac_sha256 : String → String → String)
    (secret_key : String) (t : AuthorizationToken) : String :=
  hmac_sha256 secret_key (tokenMessage t)

/-- C6: for every metrics value, `evaluate_trust_level` returns NO_TRUST
iff error_rate > 50 or latency_p99 > 10000 or staleness > 1800;
otherwise CONSTRAINED iff error_rate > 20 or latency_p99 > 2000 or
staleness > 300; otherwise DEGRADED iff error_rate > 1 or
latency_p99 > 200; otherwise NORMAL; and the concrete metrics
{error_rate = 0, latency_p99 = 50, staleness = 0} evaluate to NORMAL. -/
theorem evaluate_trust_level_thresholds (m : TrustMetrics) :
    (TrustMonitor.evaluate_trust_level m = .NO_TRUST ↔
      (m.error_rate > 50 ∨ m.auth_latency_p99 > 10000 ∨
        m.cache_staleness > 1800)) ∧
    (TrustMonitor.evaluate_trust_level m = .CONSTRAINED ↔
      (¬ (m.error_rate > 50 ∨ m.auth_latency_p99 > 10000 ∨
          m.cache_staleness > 1800) ∧
        (m.error_rate > 20 ∨ m.auth_latency_p99 > 2000 ∨
          m.cache_staleness > 300))) ∧
    (TrustMonitor.evaluate_trust_level m = .DEGRADED ↔
      (¬ (m.error_rate > 50 ∨ m.auth_latency_p99 > 10000 ∨
          m.cache_staleness > 1800) ∧
        ¬ (m.error_rate > 20 ∨ m.auth_latency_p99 > 2000 ∨
          m.cache_staleness > 300) ∧
        (m.error_rate > 1 ∨ m.auth_latency_p99 > 200))) ∧
    (TrustMonitor.evaluate_trust_level m = .NORMAL ↔
      (¬ (m.error_rate > 50 ∨ m.auth_latency_p99 > 10000 ∨
          m.cache_staleness > 1800) ∧
        ¬ (m.error_rate > 20 ∨ m.auth_latency_p99 > 2000 ∨
          m.cache_staleness > 300) ∧
        ¬ (m.error_rate > 1 ∨ m.auth_latency_p99 > 200))) ∧
    TrustMonitor.evaluate_trust_level
      { auth_latency_p99 := 50, error_rate := 0, cache_staleness := 0 } =
      .NORMAL := by
  refine ⟨?_, ?_, ?_, ?_, by norm_num [TrustMonitor.evaluate_trust_level]⟩ <;>
    · unfold TrustMonitor.evaluate_trust_level
      split_ifs with h1 h2 h3 <;> simp_all

/-- C5: when both audit sinks fail, `log_operation` raises the blocking
`AuditFailureException` iff the operation is required (flag or member of
the always-required set), otherwise returns false; it never returns
true. -/
theorem log_operation_double_failure_policy (operation : String)
    (required : Bool) :
    ((required = true ∨ operation ∈ audit_required_operations) →
      log_operation false false operation required =
        .error "Operation blocked: audit service unavailable") ∧
    (¬ (required = true ∨ operation ∈ audit_required_operations) →
      log_operation false false operation required = .ok false) ∧
    log_operation false false operation required ≠ .ok true := by
  by_cases h : required = true ∨ operation ∈ audit_required_operations
  · refine ⟨fun _ => ?_, fun hn => absurd h hn, ?_⟩ <;>
      simp [log_operation, h]
  · push_neg at h
    refine ⟨fun hc => absurd hc ?_, fun _ => ?_, ?_⟩ <;>
      simp [log_operation, h.1, h.2]

/-- Witness for C5: a "delete" with both sinks failing raises the
blocking failure, and a non-required "read" returns false. -/
theorem log_operation_double_failure_witness :
    log_operation false false "delete" false =
      .error "Operation blocked: audit service unavailable" ∧
    log_operation false false "read" false = .ok false := by
  refine ⟨(log_operation_double_failure_policy "delete" false).1
      (Or.inr (by simp [audit_required_operations])),
    (log_operation_double_failure_policy "read" false).2.1 ?_⟩
  simp [audit_required_operations]

/-- C2: at trust level NO_TRUST the allowed-operations gate denies every
operation — `get_allowed_privileges NO_TRUST` is empty, so even a read
of an explicitly public resource is denied by the gate and the
public-resource branch of `check_permission` is unreachable.  The first
conjunct evaluates the code at the failing input (public resource,
operation "read"); the second shows no call at NO_TRUST ever returns
allowed = true. -/
theorem no_trust_public_read_is_denied :
    (check_permission .NO_TRUST (.error ()) (fun _ => none) "u" "doc" true
        "read").result =
      { allowed := false, reason := some (gateReason "read" .NO_TRUST),
        token := none, privileges := ∅ } ∧
    (∀ (auth_check : Except Unit AuthResult) (cache : AuthCache)
        (user resource : String) (is_public : Bool) (operation : String),
      (check_permission .NO_TRUST auth_check cache user resource is_public
          operation).result.allowed = false) := by
  constructor
  · simp [check_permission, TrustMonitor.get_allowed_privileges]
  · intro auth_check cache user resource is_public operation
    simp [check_permission, TrustMonitor.get_allowed_privileges]

/-- The token stored on attempt 0 of the C4 scenario. -/
def tokC4 : AuthorizationToken :=
  { token_id := "tok-1"
    user_id := "u"
    resource_id := "doc"
    operation := "write"
    privileges := {"read", "write"}
    granted_at := 0
    expires_at := 300 }

/-- The C4 token store, holding `tokC4` under its id. -/
def storeC4 : TokenStore :=
  fun id => if id = "tok-1" then some tokC4 else none

/-- `tokC4` with its privileges altered after issuance, so that any
integrity tag computed at issuance no longer matches its fields. -/
def tamperedC4 : AuthorizationToken :=
  { tokC4 with privileges := {"read", "write", "admin"} }

/-- C4: a retry (attempt = 1) presenting a token whose bound fields were
altered after issuance is accepted: `authorize_with_retry` checks only
presence, expiry and store lookup by token id, and never recomputes or
compares the integrity tag (`compute_hmac` is never called), so the
call returns allowed = true, silently reusing the stored token. -/
theorem tampered_token_accepted_on_retry :
    ("admin" ∈ tamperedC4.privileges ∧ "admin" ∉ tokC4.privileges) ∧
    (authorize_with_retry storeC4 {"read", "write"} "tok-2" 10 "u" "doc"
        "write" 1 (some tamperedC4)).1.allowed = true ∧
    (authorize_with_retry storeC4 {"read", "write"} "tok-2" 10 "u" "doc"
        "write" 1 (some tamperedC4)).1.token = some tokC4 := by
  refine ⟨⟨by simp [tamperedC4, tokC4], by simp [tokC4]⟩, ?_, ?_⟩ <;>
    norm_num [authorize_with_retry, AuthorizationToken.is_valid, storeC4,
      tamperedC4, tokC4]

/-- The token minted on attempt 0 of a retry chain. -/
def chainToken (privAt : ℕ → Finset String) (timeAt : ℕ → ℚ)
    (new_id user_id resource_id operation : String) : AuthorizationToken :=
  { token_id := new_id
    user_id := user_id
    resource_id := resource_id
    operation := operation
    privileges := privAt 0
    granted_at := timeAt 0
    expires_at := timeAt 0 + 300 }

/-- Across a retry chain the token store stays exactly the attempt-0
store, and every attempt returns either no token or the attempt-0
token. -/
theorem runChain_invariant (privAt : ℕ → Finset String) (timeAt : ℕ → ℚ)
    (new_id user_id resource_id operation : String) (k : ℕ) :
    (runChain privAt timeAt new_id user_id resource_id operation k).2 =
      (fun id => if id = new_id then
        some (chainToken privAt timeAt new_id user_id resource_id operation)
        else none) ∧
    ((runChain privAt timeAt new_id user_id resource_id operation k).1.token
        = none ∨
      (runChain privAt timeAt new_id user_id resource_id operation k).1.token
        = some (chainToken privAt timeAt new_id user_id resource_id
            operation)) := by
  induction k with
  | zero =>
      constructor
      · funext id
        simp [runChain, authorize_with_retry, emptyStore, chainToken]
      · right
        simp [runChain, authorize_with_retry, chainToken]
  | succ k ih =>
      obtain ⟨hstore, htok⟩ := ih
      simp only [runChain]
      rw [hstore]
      rcases htok with htok | htok <;> rw [htok]
      · exact ⟨by simp [authorize_with_retry], Or.inl (by simp [authorize_with_retry])⟩
      · have hid : (chainToken privAt timeAt new_id user_id resource_id
            operation).token_id = new_id := rfl
        by_cases hv : (chainToken privAt timeAt new_id user_id resource_id
            operation).is_valid (timeAt (k + 1))
        · exact ⟨by simp [authorize_with_retry, hv, hid],
            Or.inr (by simp [authorize_with_retry, hv, hid])⟩
        · exact ⟨by simp [authorize_with_retry, hv],
            Or.inl (by simp [authorize_with_retry, hv])⟩

/-- C1 (amended): in every retry chain, the privileges returned at any
retry attempt k ≥ 1 are a subset of the privileges granted at attempt 0
(the stored grant) — every retry intersects with the attempt-0 token,
not with the previous attempt. -/
theorem retry_chain_privileges_bounded_by_original
    (privAt : ℕ → Finset String) (timeAt : ℕ → ℚ)
    (new_id user_id resource_id operation : String) (k : ℕ) :
    chainPrivileges privAt timeAt new_id user_id resource_id operation
        (k + 1) ⊆
      chainPrivileges privAt timeAt new_id user_id resource_id operation
        0 := by
  obtain ⟨hstore, htok⟩ :=
    runChain_invariant privAt timeAt new_id user_id resource_id operation k
  have h0 : chainPrivileges privAt timeAt new_id user_id resource_id
      operation 0 = privAt 0 := by
    simp [chainPrivileges, runChain, authorize_with_retry]
  rw [h0]
  unfold chainPrivileges
  simp only [runChain]
  rw [hstore]
  rcases htok with htok | htok <;> rw [htok]
  · simp [authorize_with_retry]
  · have hid : (chainToken privAt timeAt new_id user_id resource_id
        operation).token_id = new_id := rfl
    have hpriv : (chainToken privAt timeAt new_id user_id resource_id
        operation).privileges = privAt 0 := rfl
    by_cases hv : (chainToken privAt timeAt new_id user_id resource_id
        operation).is_valid (timeAt (k + 1))
    · simp only [authorize_with_retry, hv, hid]
      simp only [Nat.succ_ne_zero, if_false, if_true, ite_true, ite_false]
      simp only [hpriv]
      exact Finset.inter_subset_left
    · simp [authorize_with_retry, hv]

/-- The authoritative privilege source of the C1 counterexample: it
grants {read, write} at attempt 0, then {read} at attempt 1, then
{write} at attempt 2. -/
def privCE : ℕ → Finset String :=
  fun k => if k = 0 then {"read", "write"} else
    if k = 1 then {"read"} else {"write"}

/-- C1 (counterexample): with fluctuating authoritative privileges the
set returned at attempt 2 ({write}) is not a subset of the set returned
at attempt 1 ({read}), because each retry intersects with the stored
attempt-0 privileges rather than with the previous attempt, so
monotonicity between consecutive retries fails for k ≥ 1. -/
theorem retry_chain_not_monotone_between_retries :
    ¬ chainPrivileges privCE (fun _ => 0) "tok-1" "u" "doc" "write" 2 ⊆
      chainPrivileges privCE (fun _ => 0) "tok-1" "u" "doc" "write" 1 := by
  intro h
  have hw : "write" ∈
      chainPrivileges privCE (fun _ => 0) "tok-1" "u" "doc" "write" 2 := by
    norm_num [chainPrivileges, runChain, authorize_with_retry, emptyStore,
      AuthorizationToken.is_valid, Finset.mem_inter, privCE]
  have hn : "write" ∉
      chainPrivileges privCE (fun _ => 0) "tok-1" "u" "doc" "write" 1 := by
    norm_num [chainPrivileges, runChain, authorize_with_retry, emptyStore,
      AuthorizationToken.is_valid, Finset.mem_inter, privCE]
    decide
  exact hn (h hw)

/-- When every CRITICAL invariant in the remaining list passes, the
`check_all` loop evaluates the whole list, appends one metric event per
invariant, and returns whether the accumulator and all checks passed. -/
theorem checkAllGo_no_critical_failure {Ctx : Type} (ctx : Ctx)
    (l : List (SecurityInvariant Ctx)) (acc : Bool)
    (tr : List (String × Bool × InvariantSeverity))
    (h : ∀ inv ∈ l, inv.severity = .CRITICAL → inv.check ctx = true) :
    checkAllGo ctx l acc tr =
      { events := tr.reverse ++
          l.map (fun inv => (inv.name, inv.check ctx, inv.severity)),
        result := .ok (acc && l.all (fun inv => inv.check ctx)) } := by
  induction l generalizing acc tr with
  | nil => simp [checkAllGo]
  | cons inv rest ih =>
      have hrest : ∀ i ∈ rest, i.severity = .CRITICAL → i.check ctx = true :=
        fun i hi => h i (List.mem_cons_of_mem inv hi)
      by_cases hc : inv.check ctx = true
      · rw [show checkAllGo ctx (inv :: rest) acc tr =
            checkAllGo ctx rest acc ((inv.name, inv.check ctx, inv.severity) :: tr) by
          simp [checkAllGo, hc]]
        rw [ih acc ((inv.name, inv.check ctx, inv.severity) :: tr) hrest]
        simp [hc, Bool.and_assoc]
      · have hnotcrit : inv.severity ≠ .CRITICAL := fun hcrit =>
          hc (h inv (List.mem_cons_self inv rest) hcrit)
        have hstep : checkAllGo ctx (inv :: rest) acc tr =
            checkAllGo ctx rest false
              ((inv.name, inv.check ctx, inv.severity) :: tr) := by
          simp only [checkAllGo, hc, if_neg]
          cases hsev : inv.severity <;> simp_all [checkAllGo]
        rw [hstep, ih false ((inv.name, inv.check ctx, inv.severity) :: tr) hrest]
        simp [hc, Bool.and_assoc]

/-- C3 (amended): provided no CRITICAL invariant fails on the context,
`check_all` evaluates every registered invariant (one metric event per
invariant, in order, so non-CRITICAL failures never skip later
invariants) and returns true iff all passed.  When a CRITICAL invariant
fails, however, `check_all` raises `SecurityInvariantViolation`
immediately and the invariants after it are not evaluated (see the
accompanying counterexample), instead of converting allow to deny after
full evaluation. -/
theorem check_all_evaluates_all_without_critical_failure {Ctx : Type}
    (invariants : List (SecurityInvariant Ctx)) (context : Ctx)
    (h : ∀ inv ∈ invariants, inv.severity = .CRITICAL →
      inv.check context = true) :
    (check_all invariants context).events =
      invariants.map (fun inv => (inv.name, inv.check context, inv.severity)) ∧
    (check_all invariants context).result =
      .ok (invariants.all (fun inv => inv.check context)) := by
  rw [check_all, checkAllGo_no_critical_failure context invariants true [] h]
  simp

/-- A failing HIGH-severity invariant, for the C3 witness. -/
def invHighFail : SecurityInvariant Unit :=
  { name := "HighFail"
    severity := .HIGH
    check := fun _ => false
    violation_message := fun _ => "high violation" }

/-- A passing LOW-severity invariant, for the C3 witness. -/
def invLowPass : SecurityInvariant Unit :=
  { name := "LowPass"
    severity := .LOW
    check := fun _ => true
    violation_message := fun _ => "low violation" }

/-- Witness for C3 (amended): with a failing HIGH invariant followed by
a passing LOW invariant, both are evaluated and the call returns false
without raising. -/
theorem check_all_evaluates_all_witness :
    (check_all [invHighFail, invLowPass] ()).events =
      [("HighFail", false, InvariantSeverity.HIGH),
        ("LowPass", true, InvariantSeverity.LOW)] ∧
    (check_all [invHighFail, invLowPass] ()).result = .ok false := by
  have h := check_all_evaluates_all_without_critical_failure
    [invHighFail, invLowPass] () (by
      intro inv hmem hcrit
      rcases List.mem_cons.mp hmem with hm | hm
      · subst hm
        simp [invHighFail] at hcrit
      · rcases List.mem_cons.mp hm with hm2 | hm2
        · subst hm2
          simp [invLowPass] at hcrit
        · simp at hm2)
  simpa [invHighFail, invLowPass] using h

/-- A failing CRITICAL invariant, for the C3 counterexample. -/
def invCriticalFail : SecurityInvariant Unit :=
  { name := "CriticalFail"
    severity := .CRITICAL
    check := fun _ => false
    violation_message := fun _ => "critical violation" }

/-- C3 (counterexample): with a failing CRITICAL invariant registered
before a second invariant, `check_all` records a metric event only for
the first invariant — the second check predicate is never evaluated —
and raises `SecurityInvariantViolation` rather than returning a deny
after full evaluation. -/
theorem check_all_skips_after_critical_violation :
    (check_all [invCriticalFail, invLowPass] ()).events =
      [("CriticalFail", false, InvariantSeverity.CRITICAL)] ∧
    (check_all [invCriticalFail, invLowPass] ()).result =
      .error "critical violation" := by
  constructor <;>
    simp [check_all, checkAllGo, invCriticalFail, invLowPass]

/-- C7 (amended): the anti-flap monitor of `evaluate_trust_level.py`
never applies a transition before the current level has been held for
the 30-second minimum dwell, and never applies a downgrade (lower rank)
unless the computed level has been confirmed on at least 3 consecutive
evaluations.  (The observation-mode monitor of `trust_monitor.py`, by
contrast, applies every computed change immediately — see the
accompanying counterexample.) -/
theorem anti_flap_dwell_and_confirmation (s : AntiFlapState) (now : ℚ)
    (m : TrustMetrics)
    (h : (antiFlapEvaluate s now m).1.current_level ≠ s.current_level) :
    min_level_duration ≤ now - s.level_enter_time ∧
    ((antiFlapEvaluate s now m).1.current_level.value <
        s.current_level.value →
      3 ≤ confirmStreak s (TrustMonitor.evaluate_trust_level m)) := by
  simp only [antiFlapEvaluate] at h ⊢
  split_ifs at h ⊢ with h1 h2 h3
  · simp at h
  · simp at h
  · refine ⟨not_lt.mp h2, fun hv => ?_⟩
    simp only at hv
    have hconf : (confirm_degradation s
        (TrustMonitor.evaluate_trust_level m) 3 : Bool) = true := by
      by_contra hc
      exact h3 ⟨hv, by simpa using hc⟩
    simpa [confirm_degradation] using hconf
  · simp at h

/-- Anti-flap state for the C7 witness: NORMAL for 40 seconds, with
NO_TRUST already computed on the two preceding evaluations. -/
def antiFlapStateW : AntiFlapState :=
  { current_level := .NORMAL
    level_enter_time := 0
    last_computed := some .NO_TRUST
    computed_streak := 2 }

/-- Metrics with a 60% error rate, classified NO_TRUST. -/
def spikeMetrics : TrustMetrics :=
  { auth_latency_p99 := 50, error_rate := 60, cache_staleness := 0 }

/-- Witness for C7 (amended): at time 40 a third consecutive NO_TRUST
evaluation is applied, and the theorem yields the dwell and
confirmation facts for it. -/
theorem anti_flap_dwell_witness :
    min_level_duration ≤ (40 : ℚ) - antiFlapStateW.level_enter_time ∧
    ((antiFlapEvaluate antiFlapStateW 40 spikeMetrics).1.current_level.value <
        antiFlapStateW.current_level.value →
      3 ≤ confirmStreak antiFlapStateW
        (TrustMonitor.evaluate_trust_level spikeMetrics)) := by
  refine anti_flap_dwell_and_confirmation antiFlapStateW 40 spikeMetrics ?_
  norm_num [antiFlapEvaluate, antiFlapStateW, spikeMetrics,
    TrustMonitor.evaluate_trust_level, confirmStreak, confirm_degradation,
    TrustLevel.value, min_level_duration]
  decide

/-- Healthy metrics, classified NORMAL. -/
def healthyMetrics : TrustMetrics :=
  { auth_latency_p99 := 50, error_rate := 0, cache_staleness := 0 }

/-- C7 (counterexample): the observation-mode monitor of
`trust_monitor.py` applies a level transition on a single spiking
evaluation, with no dwell time and no confirmation streak — one bad
sample moves NORMAL to NO_TRUST, and the next healthy sample moves it
straight back. -/
theorem update_trust_level_single_spike_transitions :
    TrustMonitor.update_trust_level .NORMAL spikeMetrics = .NO_TRUST ∧
    TrustMonitor.update_trust_level
      (TrustMonitor.update_trust_level .NORMAL spikeMetrics)
      healthyMetrics = .NORMAL := by
  constructor <;>
    · norm_num [TrustMonitor.update_trust_level,
        TrustMonitor.evaluate_trust_level, spikeMetrics, healthyMetrics]
      decide

/-- C8: at trust level CONSTRAINED, `check_permission` makes zero calls
to the authoritative backend; a non-read operation is denied by the
gate with a reason citing the trust level; a read is served only from a
cache entry aged at most 60 seconds, and when every cache entry is
older than 60 seconds (or there is none) the read is denied. -/
theorem constrained_read_only_cache_no_backend
    (auth_check : Except Unit AuthResult) (cache : AuthCache)
    (user resource : String) (is_public : Bool) (operation : String) :
    (check_permission .CONSTRAINED auth_check cache user resource is_public
        operation).backend_calls = 0 ∧
    (operation ≠ "read" →
      (check_permission .CONSTRAINED auth_check cache user resource
          is_public operation).result =
        { allowed := false,
          reason := some (gateReason operation .CONSTRAINED),
          token := none, privileges := ∅ }) ∧
    (operation = "read" →
      ((check_permission .CONSTRAINED auth_check cache user resource
            is_public operation).result.allowed = true →
        ∃ cached, cache (authCacheKey user resource "read") = some cached ∧
          cached.age_seconds ≤ 60 ∧
          (check_permission .CONSTRAINED auth_check cache user resource
              is_public operation).result = cached.result) ∧
      ((∀ cached, cache (authCacheKey user resource "read") = some cached →
          (60 : ℚ) < cached.age_seconds) →
        (check_permission .CONSTRAINED auth_check cache user resource
            is_public operation).result =
          { allowed := false,
            reason := some "Insufficient trust level for authorization",
            token := none, privileges := ∅ })) := by
  by_cases hop : operation = "read"
  · subst hop
    rcases hc : cache (authCacheKey user resource "read") with _ | cached
    · refine ⟨?_, fun hno => absurd rfl hno, fun _ => ⟨fun hall => ?_, fun _ => ?_⟩⟩ <;>
        simp_all [check_permission, TrustMonitor.get_allowed_privileges, hc]
    · by_cases hage : cached.age_seconds < 60
      · have hres : check_permission .CONSTRAINED auth_check cache user
            resource is_public "read" =
            { result := cached.result, backend_calls := 0 } := by
          simp [check_permission, TrustMonitor.get_allowed_privileges, hc, hage]
        refine ⟨by rw [hres], fun hno => absurd rfl hno, fun _ =>
          ⟨fun _ => ⟨cached, rfl, le_of_lt hage, by rw [hres]⟩,
            fun hall => absurd (hall cached rfl) (by linarith)⟩⟩
      · have hres : check_permission .CONSTRAINED auth_check cache user
            resource is_public "read" =
            { result := { allowed := false
                          reason := some "Insufficient trust level for authorization"
                          token := none
                          privileges := ∅ }
              backend_calls := 0 } := by
          simp [check_permission, TrustMonitor.get_allowed_privileges, hc, hage]
        refine ⟨by rw [hres], fun hno => absurd rfl hno, fun _ =>
          ⟨fun hall => ?_, fun _ => by rw [hres]⟩⟩
        rw [hres] at hall
        simp at hall
  · refine ⟨?_, fun _ => ?_, fun hr => absurd hr hop⟩ <;>
      simp [check_permission, TrustMonitor.get_allowed_privileges, hop]

/-- A cache for the C8 witness, holding a 30-second-old allow result
for the read key. -/
def cacheW : AuthCache :=
  fun key => if key = authCacheKey "u" "doc" "read" then
    some { result := { allowed := true, reason := none, token := none,
                       privileges := {"read"} },
           age_seconds := 30 }
    else none

/-- Witness for C8: at CONSTRAINED a "write" is denied citing the trust
level with zero backend calls, and a "read" served while an allowing
30-second-old cache entry exists is served from a cache entry aged at
most 60 seconds. -/
theorem constrained_read_only_witness :
    (check_permission .CONSTRAINED (.error ()) cacheW "u" "doc" false
        "write").result =
      { allowed := false, reason := some (gateReason "write" .CONSTRAINED),
        token := none, privileges := ∅ } ∧
    (check_permission .CONSTRAINED (.error ()) cacheW "u" "doc" false
        "write").backend_calls = 0 ∧
    ∃ cached, cacheW (authCacheKey "u" "doc" "read") = some cached ∧
      cached.age_seconds ≤ 60 ∧
      (check_permission .CONSTRAINED (.error ()) cacheW "u" "doc" false
          "read").result = cached.result := by
  have hw := constrained_read_only_cache_no_backend (.error ()) cacheW
    "u" "doc" false "write"
  have hr := constrained_read_only_cache_no_backend (.error ()) cacheW
    "u" "doc" false "read"
  refine ⟨hw.2.1 (by decide), hw.1, (hr.2.2 rfl).1 ?_⟩
  norm_num [check_permission, TrustMonitor.get_allowed_privileges, cacheW]
  decide

/-- C10: `compute_hmac` is independent of `granted_at` and
`expires_at`: any two tokens agreeing on token_id, user_id,
resource_id, operation and privileges produce the same integrity tag
under every key, so the expiry timestamps are not integrity-protected. -/
theorem compute_hmac_independent_of_timestamps
    (hmac_sha256 : String → String → String) (secret_key : String)
    (t1 t2 : AuthorizationToken)
    (hid : t1.token_id = t2.token_id) (hu : t1.user_id = t2.user_id)
    (hr : t1.resource_id = t2.resource_id)
    (ho : t1.operation = t2.operation)
    (hp : t1.privileges = t2.privileges) :
    compute_hmac hmac_sha256 secret_key t1 =
      compute_hmac hmac_sha256 secret_key t2 := by
  unfold compute_hmac tokenMessage sortedPrivileges
  rw [hid, hu, hr, ho, hp]

/-- A token for the C10 witness. -/
def tokTs1 : AuthorizationToken :=
  { token_id := "tok-9"
    user_id := "alice"
    resource_id := "doc"
    operation := "read"
    privileges := {"read"}
    granted_at := 0
    expires_at := 300 }

/-- `tokTs1` with both timestamps changed. -/
def tokTs2 : AuthorizationToken :=
  { tokTs1 with granted_at := 100, expires_at := 7200 }

/-- Witness for C10: two tokens that differ in both timestamps get the
same integrity tag. -/
theorem compute_hmac_timestamps_witness :
    tokTs1.expires_at ≠ tokTs2.expires_at ∧
    compute_hmac (fun _ m => m) "key" tokTs1 =
      compute_hmac (fun _ m => m) "key" tokTs2 := by
  refine ⟨by norm_num [tokTs1, tokTs2], ?_⟩
  exact compute_hmac_independent_of_timestamps (fun _ m => m) "key"
    tokTs1 tokTs2 rfl rfl rfl rfl rfl

/-- A token whose user_id contains a colon, for the C9 counterexample. -/
def tokCE1 : AuthorizationToken :=
  { token_id := "t"
    user_id := "u:r"
    resource_id := "x"
    operation := "read"
    privileges := {"p"}
    granted_at := 0
    expires_at := 300 }

/-- A token with different user_id and resource_id than `tokCE1` whose
colon-joined serialization is identical. -/
def tokCE2 : AuthorizationToken :=
  { token_id := "t"
    user_id := "u"
    resource_id := "r:x"
    operation := "read"
    privileges := {"p"}
    granted_at := 0
    expires_at := 300 }

/-- C9 (counterexample): the claim fails — because the serialized
message joins the bound fields with ":" and fields may contain colons,
two tokens that differ in user_id (and resource_id) can have the
identical message "t:u:r:x:read:[p-repr]", so `compute_hmac` yields the
same integrity tag for them under every key and every HMAC primitive. -/
theorem compute_hmac_collision_on_bound_fields :
    ¬ (∀ (hmac_sha256 : String → String → String) (secret_key : String)
        (t1 t2 : AuthorizationToken),
        (t1.user_id ≠ t2.user_id ∨ t1.resource_id ≠ t2.resource_id ∨
          t1.operation ≠ t2.operation ∨ t1.privileges ≠ t2.privileges) →
        compute_hmac hmac_sha256 secret_key t1 ≠
          compute_hmac hmac_sha256 secret_key t2) := by
  intro hclaim
  refine hclaim (fun _ m => m) "" tokCE1 tokCE2 (Or.inl (by decide)) ?_
  show tokenMessage tokCE1 = tokenMessage tokCE2
  simp [tokenMessage, sortedPrivileges, tokCE1, tokCE2, Finset.sort_singleton,
    pyListRepr, pyJoinReprs, pyStrRepr]

/-- The colon character joining the token message fields. -/
def colonChar : Char := ':'

/-- Peeling a separator: if two lists free of the separator character
are each followed by the separator, equality of the joined lists forces
equality of both parts. -/
theorem sep_append_inj {c : Char} :
    ∀ {a : List Char} {b x y : List Char}, c ∉ a → c ∉ b →
      a ++ c :: x = b ++ c :: y → a = b ∧ x = y := by
  intro a
  induction a with
  | nil =>
      intro b x y ha hb h
      cases b with
      | nil => simpa using h
      | cons bh bt =>
          simp only [List.nil_append, List.cons_append, List.cons.injEq] at h
          exact absurd (h.1 ▸ List.mem_cons_self bh bt) hb
  | cons ah tl ih =>
      intro b x y ha hb h
      cases b with
      | nil =>
          simp only [List.nil_append, List.cons_append, List.cons.injEq] at h
          exact absurd (h.1 ▸ List.mem_cons_self ah tl) ha
      | cons bh bt =>
          simp only [List.cons_append, List.cons.injEq] at h
          obtain ⟨hhead, htail⟩ := h
          have ha2 : c ∉ tl := fun hmem => ha (List.mem_cons_of_mem ah hmem)
          have hb2 : c ∉ bt := fun hmem => hb (List.mem_cons_of_mem bh hmem)
          obtain ⟨he, hx⟩ := ih ha2 hb2 htail
          exact ⟨by rw [hhead, he], hx⟩

/-- The character-level form of `pyJoinReprs`: each element wrapped in
single quotes, elements joined by a comma and space. -/
def quotedJoin : List (List Char) → List Char
  | [] => []
  | [s] => quoteChar :: (s ++ [quoteChar])
  | s :: t :: rest =>
      quoteChar :: (s ++ quoteChar :: ',' :: ' ' :: quotedJoin (t :: rest))

/-- `pyJoinReprs` at the character level is `quotedJoin`. -/
theorem pyJoinReprs_data :
    ∀ l : List String, (pyJoinReprs l).data = quotedJoin (l.map String.data)
  | [] => rfl
  | [s] => by
      simp [pyJoinReprs, quotedJoin, pyStrRepr, String.data_append, quoteStr]
  | s :: t :: rest => by
      have ih := pyJoinReprs_data (t :: rest)
      simp [pyJoinReprs, quotedJoin, pyStrRepr, String.data_append, quoteStr, ih]

/-- `quotedJoin` contains no colon when no element does. -/
theorem quotedJoin_no_colon :
    ∀ l : List (List Char), (∀ s ∈ l, colonChar ∉ s) →
      colonChar ∉ quotedJoin l
  | [], _ => by simp [quotedJoin]
  | [s], h => by
      have hs := h s (List.mem_cons_self s [])
      simp only [quotedJoin, List.mem_cons, List.mem_append,
        List.mem_singleton]
      intro hmem
      rcases hmem with hq | hmem
      · exact absurd hq (by decide)
      · rcases hmem with hin | hq
        · exact hs hin
        · exact absurd hq (by decide)
  | s :: t :: rest, h => by
      have hs := h s (List.mem_cons_self s (t :: rest))
      have hrest : ∀ u ∈ t :: rest, colonChar ∉ u :=
        fun u hu => h u (List.mem_cons_of_mem s hu)
      have ih := quotedJoin_no_colon (t :: rest) hrest
      simp only [quotedJoin, List.mem_cons, List.mem_append]
      intro hmem
      rcases hmem with hq | hmem
      · exact absurd hq (by decide)
      · rcases hmem with hin | hmem
        · exact hs hin
        · rcases hmem with hq | hmem
          · exact absurd hq (by decide)
          · rcases hmem with hq | hmem
            · exact absurd hq (by decide)
            · rcases hmem with hq | hmem
              · exact absurd hq (by decide)
              · exact ih hmem

/-- `quotedJoin` is injective on lists of quote-free elements. -/
theorem quotedJoin_inj :
    ∀ {l m : List (List Char)}, (∀ s ∈ l, quoteChar ∉ s) →
      (∀ s ∈ m, quoteChar ∉ s) → quotedJoin l = quotedJoin m → l = m := by
  intro l
  induction l with
  | nil =>
      intro m hl hm h
      cases m with
      | nil => rfl
      | cons s t => simp [quotedJoin] at h; cases t <;> simp [quotedJoin] at h
  | cons s tl ih =>
      intro m hl hm h
      have hs : quoteChar ∉ s := hl s (List.mem_cons_self s tl)
      cases m with
      | nil => cases tl <;> simp [quotedJoin] at h
      | cons u um =>
          have hu : quoteChar ∉ u := hm u (List.mem_cons_self u um)
          cases tl with
          | nil =>
              cases um with
              | nil =>
                  have : s = u := by simpa [quotedJoin] using h
                  rw [this]
              | cons u2 um2 =>
                  simp only [quotedJoin, List.cons.injEq, true_and] at h
                  obtain ⟨-, habs⟩ := sep_append_inj hs hu h
                  simp at habs
          | cons s2 tl2 =>
              cases um with
              | nil =>
                  simp only [quotedJoin, List.cons.injEq, true_and] at h
                  obtain ⟨-, habs⟩ := sep_append_inj hs hu h
                  simp at habs
              | cons u2 um2 =>
                  simp only [quotedJoin, List.cons.injEq, true_and] at h
                  obtain ⟨he, htail⟩ := sep_append_inj hs hu h
                  simp only [List.cons.injEq] at htail
                  have htl : ∀ v ∈ s2 :: tl2, quoteChar ∉ v :=
                    fun v hv => hl v (List.mem_cons_of_mem s hv)
                  have hum : ∀ v ∈ u2 :: um2, quoteChar ∉ v :=
                    fun v hv => hm v (List.mem_cons_of_mem u hv)
                  rw [he, ih htl hum htail.2.2]

/-- Appending a fixed last element is injective. -/
theorem append_singleton_inj {l m : List Char} {x : Char}
    (h : l ++ [x] = m ++ [x]) : l = m := by
  have := congrArg List.reverse h
  simpa using this

/-- `pyListRepr` at the character level. -/
theorem pyListRepr_data (l : List String) :
    (pyListRepr l).data =
      '[' :: (quotedJoin (l.map String.data) ++ [']']) := by
  simp [pyListRepr, String.data_append, pyJoinReprs_data]

/-- `pyListRepr` is injective on lists of quote-free strings. -/
theorem pyListRepr_inj {l m : List String}
    (hl : ∀ s ∈ l, quoteChar ∉ s.data) (hm : ∀ s ∈ m, quoteChar ∉ s.data)
    (h : pyListRepr l = pyListRepr m) : l = m := by
  have hd := congrArg String.data h
  rw [pyListRepr_data, pyListRepr_data] at hd
  simp only [List.cons.injEq, true_and] at hd
  have hjoin := append_singleton_inj hd
  have hmapl : ∀ s ∈ l.map String.data, quoteChar ∉ s := by
    intro s hs
    obtain ⟨u, hu, rfl⟩ := List.mem_map.mp hs
    exact hl u hu
  have hmapm : ∀ s ∈ m.map String.data, quoteChar ∉ s := by
    intro s hs
    obtain ⟨u, hu, rfl⟩ := List.mem_map.mp hs
    exact hm u hu
  have hmaps := quotedJoin_inj hmapl hmapm hjoin
  exact List.map_injective_iff.mpr (fun a b hab => String.ext hab) hmaps

/-- `pyListRepr` of colon-free strings contains no colon. -/
theorem pyListRepr_no_colon {l : List String}
    (hl : ∀ s ∈ l, colonChar ∉ s.data) :
    colonChar ∉ (pyListRepr l).data := by
  rw [pyListRepr_data]
  intro hmem
  rcases List.mem_cons.mp hmem with hq | hmem
  · exact absurd hq (by decide)
  · rcases List.mem_append.mp hmem with hj | hq
    · refine quotedJoin_no_colon (l.map String.data) ?_ hj
      intro s hs
      obtain ⟨u, hu, rfl⟩ := List.mem_map.mp hs
      exact hl u hu
    · simp at hq
      exact absurd hq (by decide)

/-- Sorting determines the finite set: equal sorted privilege lists
mean equal privilege sets. -/
theorem sort_eq_iff_finset_eq {s t : Finset String}
    (h : s.sort (· ≤ ·) = t.sort (· ≤ ·)) : s = t := by
  ext a
  rw [← Finset.mem_sort (α := String) (· ≤ ·), h,
    Finset.mem_sort (α := String) (· ≤ ·)]

/-- Bound fields on which the colon-joined serialization of
`compute_hmac` is unambiguous: the four string fields are colon-free
and every privilege name is colon-free and quote-free. -/
def SafeFields (t : AuthorizationToken) : Prop :=
  colonChar ∉ t.token_id.data ∧ colonChar ∉ t.user_id.data ∧
    colonChar ∉ t.resource_id.data ∧ colonChar ∉ t.operation.data ∧
    ∀ p ∈ t.privileges, colonChar ∉ p.data ∧ quoteChar ∉ p.data

/-- The token message at the character level. -/
theorem tokenMessage_data (t : AuthorizationToken) :
    (tokenMessage t).data =
      t.token_id.data ++ colonChar :: (t.user_id.data ++ colonChar ::
        (t.resource_id.data ++ colonChar :: (t.operation.data ++ colonChar ::
          (pyListRepr (sortedPrivileges t)).data))) := by
  have hcolon : (":" : String).data = [colonChar] := by decide
  simp [tokenMessage, String.data_append, hcolon]
  decide

/-- On tokens with safe fields the serialized message determines every
bound field. -/
theorem tokenMessage_inj {t1 t2 : AuthorizationToken}
    (h1 : SafeFields t1) (h2 : SafeFields t2)
    (h : tokenMessage t1 = tokenMessage t2) :
    t1.token_id = t2.token_id ∧ t1.user_id = t2.user_id ∧
      t1.resource_id = t2.resource_id ∧ t1.operation = t2.operation ∧
      t1.privileges = t2.privileges := by
  obtain ⟨hi1, hu1, hr1, ho1, hp1⟩ := h1
  obtain ⟨hi2, hu2, hr2, ho2, hp2⟩ := h2
  have hd := congrArg String.data h
  rw [tokenMessage_data, tokenMessage_data] at hd
  obtain ⟨e1, hd⟩ := sep_append_inj hi1 hi2 hd
  obtain ⟨e2, hd⟩ := sep_append_inj hu1 hu2 hd
  obtain ⟨e3, hd⟩ := sep_append_inj hr1 hr2 hd
  obtain ⟨e4, hd⟩ := sep_append_inj ho1 ho2 hd
  have hqf1 : ∀ s ∈ sortedPrivileges t1, quoteChar ∉ s.data := by
    intro s hs
    exact (hp1 s ((Finset.mem_sort (α := String) (· ≤ ·)).mp hs)).2
  have hqf2 : ∀ s ∈ sortedPrivileges t2, quoteChar ∉ s.data := by
    intro s hs
    exact (hp2 s ((Finset.mem_sort (α := String) (· ≤ ·)).mp hs)).2
  have hsorted : sortedPrivileges t1 = sortedPrivileges t2 :=
    pyListRepr_inj hqf1 hqf2 (String.ext hd)
  exact ⟨String.ext e1, String.ext e2, String.ext e3, String.ext e4,
    sort_eq_iff_finset_eq hsorted⟩

/-- C9 (amended): restricted to tokens whose bound fields are safe for
the colon-joined serialization (colon-free strings, quote-free
privilege names) and assuming the HMAC primitive is injective for the
key in use (the collision-resistance idealization of HMAC-SHA256),
two tokens that differ in user_id, resource_id, operation or
privileges receive different integrity tags.  Without the field
restriction the serialization is ambiguous and the tags can coincide
(see the accompanying counterexample). -/
theorem compute_hmac_distinct_when_fields_safe
    (hmac_sha256 : String → String → String) (secret_key : String)
    (hinj : Function.Injective (hmac_sha256 secret_key))
    (t1 t2 : AuthorizationToken)
    (hs1 : SafeFields t1) (hs2 : SafeFields t2)
    (hdiff : t1.user_id ≠ t2.user_id ∨ t1.resource_id ≠ t2.resource_id ∨
      t1.operation ≠ t2.operation ∨ t1.privileges ≠ t2.privileges) :
    compute_hmac hmac_sha256 secret_key t1 ≠
      compute_hmac hmac_sha256 secret_key t2 := by
  intro he
  have hmsg : tokenMessage t1 = tokenMessage t2 := hinj he
  obtain ⟨-, e2, e3, e4, e5⟩ := tokenMessage_inj hs1 hs2 hmsg
  rcases hdiff with hd | hd | hd | hd
  · exact hd e2
  · exact hd e3
  · exact hd e4
  · exact hd e5

/-- A colon-free token for the C9 witness. -/
def tokSafe1 : AuthorizationToken :=
  { token_id := "tok-7"
    user_id := "alice"
    resource_id := "doc"
    operation := "read"
    privileges := {"read"}
    granted_at := 0
    expires_at := 300 }

/-- `tokSafe1` with a different user. -/
def tokSafe2 : AuthorizationToken :=
  { tokSafe1 with user_id := "bob" }

/-- Witness for C9 (amended): with safe fields and an injective
primitive, the two tokens differing in user_id get different tags. -/
theorem compute_hmac_distinct_witness :
    compute_hmac (fun _ m => m) "key" tokSafe1 ≠
      compute_hmac (fun _ m => m) "key" tokSafe2 := by
  refine compute_hmac_distinct_when_fields_safe (fun _ m => m) "key"
    (fun _ _ hh => hh) tokSafe1 tokSafe2 ?_ ?_ (Or.inl (by decide)) <;>
    · refine ⟨by decide, by decide, by decide, by decide, ?_⟩
      intro p hp
      simp [tokSafe1, tokSafe2] at hp
      subst hp
      exact ⟨by decide, by decide⟩
